import Mathlib

/-!
Verification of the flight-path batched curve-and-pane rendering core.

A shallow embedding of the repository's batched rendering engine:

* the GLSL vertex program of `MergedGPUPanesShader.js` (spline evaluation,
  orientation, visibility discard), with GPU floats modelled as exact
  rationals and vector normalisation abstracted as a function parameter
  (the only non-rational operation; every property proved here is
  independent of it);
* the CPU-side state of the `PanesShader` batch renderer
  (`MergedGPUCurves.js`, second document): per-instance attribute arrays
  and every mutating method;
* the CPU-side state of the `MergedGPUCurves` curve batch renderer:
  the flat position/colour buffers, per-slot data, visible count and
  draw range, and every mutating method;
* the `Flight` facade of `main_gpu.js`: control-point resampling and the
  time-to-parameter mapping of `update`.

JavaScript `Float32Array` buffers become `List Vec3` (out-of-range writes
are dropped, as they are on a typed array); `Math.floor` becomes
`Int.floor`; the JS `%` operator becomes a truncated remainder; GLSL
`mod(x, y)` becomes a floored remainder.  The spline evaluator of the
external three.js library (`CatmullRomCurve3`), which the repository calls
but does not contain, is modelled from the spec as a uniform Catmull-Rom
spline through the points (see `catmullRomGetPoint`).
-/

namespace FlightPath

/-- A 3-component vector of exact rationals (GLSL `vec3` / three.js `Vector3`). -/
structure Vec3 where
  x : ℚ
  y : ℚ
  z : ℚ
deriving DecidableEq, Repr, Inhabited

instance : Zero Vec3 := ⟨⟨0, 0, 0⟩⟩

instance : Add Vec3 := ⟨fun a b => ⟨a.x + b.x, a.y + b.y, a.z + b.z⟩⟩

instance : Sub Vec3 := ⟨fun a b => ⟨a.x - b.x, a.y - b.y, a.z - b.z⟩⟩

instance : Neg Vec3 := ⟨fun a => ⟨-a.x, -a.y, -a.z⟩⟩

instance : SMul ℚ Vec3 := ⟨fun c a => ⟨c * a.x, c * a.y, c * a.z⟩⟩

theorem Vec3.ext_iff {a b : Vec3} : a = b ↔ a.x = b.x ∧ a.y = b.y ∧ a.z = b.z := by
  constructor
  · intro h; subst h; exact ⟨rfl, rfl, rfl⟩
  · intro ⟨hx, hy, hz⟩; cases a; cases b; simp_all

@[simp] theorem Vec3.add_def (a b : Vec3) : a + b = ⟨a.x + b.x, a.y + b.y, a.z + b.z⟩ := rfl

@[simp] theorem Vec3.sub_def (a b : Vec3) : a - b = ⟨a.x - b.x, a.y - b.y, a.z - b.z⟩ := rfl

@[simp] theorem Vec3.neg_def (a : Vec3) : -a = ⟨-a.x, -a.y, -a.z⟩ := rfl

@[simp] theorem Vec3.smul_def (c : ℚ) (a : Vec3) : c • a = ⟨c * a.x, c * a.y, c * a.z⟩ := rfl

@[simp] theorem Vec3.zero_def : (0 : Vec3) = ⟨0, 0, 0⟩ := rfl

/-- A 4-component vector of exact rationals (GLSL `vec4`). -/
structure Vec4 where
  x : ℚ
  y : ℚ
  z : ℚ
  w : ℚ
deriving DecidableEq, Repr, Inhabited

instance : Add Vec4 := ⟨fun a b => ⟨a.x + b.x, a.y + b.y, a.z + b.z, a.w + b.w⟩⟩

instance : SMul ℚ Vec4 := ⟨fun c a => ⟨c * a.x, c * a.y, c * a.z, c * a.w⟩⟩

/-- A column-major 4x4 matrix (GLSL `mat4`): `mat4(col0, col1, col2, col3)`. -/
structure Mat4 where
  c0 : Vec4
  c1 : Vec4
  c2 : Vec4
  c3 : Vec4
deriving DecidableEq, Repr

/-- GLSL matrix-vector product for a column-major matrix. -/
def Mat4.mulVec (m : Mat4) (v : Vec4) : Vec4 :=
  v.x • m.c0 + v.y • m.c1 + v.z • m.c2 + v.w • m.c3

/-- GLSL matrix-matrix product. -/
def Mat4.mul (a b : Mat4) : Mat4 :=
  ⟨a.mulVec b.c0, a.mulVec b.c1, a.mulVec b.c2, a.mulVec b.c3⟩

/-- GLSL `cross(a, b)`. -/
def cross (a b : Vec3) : Vec3 :=
  ⟨a.y * b.z - a.z * b.y, a.z * b.x - a.x * b.z, a.x * b.y - a.y * b.x⟩

/-- GLSL `mod(x, y) = x - y * floor(x/y)` (floored remainder). -/
def glslMod (x y : ℚ) : ℚ := x - y * ⌊x / y⌋

/-- `glslMod x 1` is the fractional part of `x`. -/
theorem glslMod_one (x : ℚ) : glslMod x 1 = Int.fract x := by
  unfold glslMod Int.fract
  rw [div_one, one_mul]

namespace Shader

/-!
The vertex program embedded inline in `MergedGPUPanesShader.js`.
`nrm` abstracts GLSL `normalize` (irrational in general); all theorems hold
for an arbitrary `nrm`.
-/

/-- `evaluateCatmullRomSegment(p0, p1, p2, p3, t)` from the vertex shader:
one cubic Catmull-Rom segment interpolating from `p1` to `p2`. -/
def evaluateCatmullRomSegment (p0 p1 p2 p3 : Vec3) (t : ℚ) : Vec3 :=
  let t2 := t * t
  let t3 := t2 * t
  (1/2 : ℚ) • (
    ((2 : ℚ) • p1) +
    (t • (-p0 + p2)) +
    (t2 • ((2 : ℚ) • p0 - (5 : ℚ) • p1 + (4 : ℚ) • p2 - p3)) +
    (t3 • (-p0 + (3 : ℚ) • p1 - (3 : ℚ) • p2 + p3)))

/-- `getCatmullRomSegmentTangent(p0, p1, p2, p3, t)` from the vertex shader:
derivative of the segment polynomial. -/
def getCatmullRomSegmentTangent (p0 p1 p2 p3 : Vec3) (t : ℚ) : Vec3 :=
  let t2 := t * t
  (1/2 : ℚ) • (
    (-p0 + p2) +
    ((2 * t) • ((2 : ℚ) • p0 - (5 : ℚ) • p1 + (4 : ℚ) • p2 - p3)) +
    ((3 * t2) • (-p0 + (3 : ℚ) • p1 - (3 : ℚ) • p2 + p3)))

/-- `evaluateCatmullRom(t, out tangent)` from the vertex shader: three cubic
segments with boundaries at the literals `0.333` and `0.666`, the outer
segments using a reflected synthetic neighbor.  Returns
`(position, tangent)`; the tangent is passed through `nrm` (GLSL
`normalize`). -/
def evaluateCatmullRom (nrm : Vec3 → Vec3) (p0 p1 p2 p3 : Vec3) (t : ℚ) : Vec3 × Vec3 :=
  if t < 333/1000 then
    let localT := t / (333/1000)
    let pBefore := p0 + (p0 - p1)
    (evaluateCatmullRomSegment pBefore p0 p1 p2 localT,
     nrm (getCatmullRomSegmentTangent pBefore p0 p1 p2 localT))
  else if t < 666/1000 then
    let localT := (t - 333/1000) / (333/1000)
    (evaluateCatmullRomSegment p0 p1 p2 p3 localT,
     nrm (getCatmullRomSegmentTangent p0 p1 p2 p3 localT))
  else
    let localT := (t - 666/1000) / (334/1000)
    let pAfter := p3 + (p3 - p2)
    (evaluateCatmullRomSegment p1 p2 p3 pAfter localT,
     nrm (getCatmullRomSegmentTangent p1 p2 p3 pAfter localT))

/-- The position component of the shader's spline evaluation (independent of
the normalisation function). -/
def evaluateCatmullRomPos (p0 p1 p2 p3 : Vec3) (t : ℚ) : Vec3 :=
  (evaluateCatmullRom id p0 p1 p2 p3 t).1

/-- `createOrientationMatrix(forward, up, tiltMode)` from the vertex shader. -/
def createOrientationMatrix (nrm : Vec3 → Vec3) (forward up : Vec3) (tiltMode : ℚ) : Mat4 :=
  let normalizedForward := nrm forward
  let right := nrm (cross up normalizedForward)
  let newUp := nrm (cross normalizedForward right)
  if tiltMode < 1/2 then
    ⟨⟨right.x, right.y, right.z, 0⟩,
     ⟨newUp.x, newUp.y, newUp.z, 0⟩,
     ⟨normalizedForward.x, normalizedForward.y, normalizedForward.z, 0⟩,
     ⟨0, 0, 0, 1⟩⟩
  else
    let rotationMatrix : Mat4 :=
      ⟨⟨right.x, right.y, right.z, 0⟩,
       ⟨newUp.x, newUp.y, newUp.z, 0⟩,
       ⟨normalizedForward.x, normalizedForward.y, normalizedForward.z, 0⟩,
       ⟨0, 0, 0, 1⟩⟩
    let tiltRotation : Mat4 :=
      ⟨⟨1, 0, 0, 0⟩,
       ⟨0, 0, 1, 0⟩,
       ⟨0, -1, 0, 0⟩,
       ⟨0, 0, 0, 1⟩⟩
    rotationMatrix.mul tiltRotation

/-- The per-instance animation parameter quadruple
(`animationParams = (phase, speed, tiltMode, visible)`). -/
structure AnimParams where
  phase : ℚ
  speed : ℚ
  tiltMode : ℚ
  visible : ℚ
deriving DecidableEq, Repr, Inhabited

/-- The animation parameter of the vertex shader:
`t = mod(time * speed + phase, 1.0)`. -/
def shaderParamT (phase speed time : ℚ) : ℚ :=
  glslMod (time * speed + phase) 1

/-- `main()` of the vertex shader of `MergedGPUPanesShader.js`, producing
`gl_Position` for one vertex of one instance.  `nrm` abstracts
`normalize`; `projectionMatrix` and `modelViewMatrix` are the built-in
uniforms. -/
def vertexMain (nrm : Vec3 → Vec3) (projectionMatrix modelViewMatrix : Mat4)
    (p0 p1 p2 p3 : Vec3) (instanceScale : ℚ) (ap : AnimParams)
    (position : Vec3) (time : ℚ) : Vec4 :=
  if ap.visible < 1/2 then
    ⟨0, 0, 0, 0⟩
  else
    let animTime := time * ap.speed + ap.phase
    let t := glslMod animTime 1
    let eval := evaluateCatmullRom nrm p0 p1 p2 p3 t
    let curvePosition := eval.1
    let tangent := eval.2
    let up : Vec3 := ⟨0, 1, 0⟩
    let rotationMatrix := createOrientationMatrix nrm tangent up ap.tiltMode
    let scaledPosition := instanceScale • position
    let worldPosition : Vec4 :=
      (⟨curvePosition.x, curvePosition.y, curvePosition.z, 1⟩ : Vec4) +
        rotationMatrix.mulVec ⟨scaledPosition.x, scaledPosition.y, scaledPosition.z, 0⟩
    projectionMatrix.mulVec (modelViewMatrix.mulVec worldPosition)

end Shader

/-- The spline evaluator exactly as the spec sentence for the pane vertex
program states it: three segments partitioned at `t ∈ [0, 1/3)`,
`[1/3, 2/3)`, `[2/3, 1]`, outer segments using the reflected synthetic
neighbor.  Written from the spec's words, to be compared with the
source-derived `Shader.evaluateCatmullRomPos`. -/
def specEvaluateCatmullRomThirds (p0 p1 p2 p3 : Vec3) (t : ℚ) : Vec3 :=
  if t < 1/3 then
    Shader.evaluateCatmullRomSegment (p0 + (p0 - p1)) p0 p1 p2 (3 * t)
  else if t < 2/3 then
    Shader.evaluateCatmullRomSegment p0 p1 p2 p3 (3 * (t - 1/3))
  else
    Shader.evaluateCatmullRomSegment p1 p2 p3 (p3 + (p3 - p2)) (3 * (t - 2/3))

/-- If every element of a list satisfies `P` and the default does too, so
does `List.getD`. -/
theorem getD_prop {α : Type} {P : α → Prop} :
    ∀ (l : List α) (i : ℕ) (d : α), (∀ x ∈ l, P x) → P d → P (l.getD i d)
  | [], _, _, _, hd => hd
  | a :: _, 0, _, hl, _ => hl a (by simp)
  | _ :: l, i + 1, d, hl, hd =>
    getD_prop l i d (fun x hx => hl x (by simp [hx])) hd

/-- Every element of `l.set i a` satisfies `P` when every element of `l`
and `a` do. -/
theorem forall_mem_set {α : Type} {P : α → Prop} {l : List α} {i : ℕ} {a : α}
    (hl : ∀ x ∈ l, P x) (ha : P a) : ∀ x ∈ l.set i a, P x := by
  intro x hx
  rcases List.mem_or_eq_of_mem_set hx with h | h
  · exact hl x h
  · exact h ▸ ha

namespace PanesShader

/-!
The CPU side of the `PanesShader` pane batch renderer (the second document
of `MergedGPUCurves.js`): per-instance attribute arrays and every mutating
method.  `Float32Array`s of packed values become lists of structured
values; an index is an integer (JavaScript numbers can be negative);
colors are taken as RGB triples (the `THREE.Color` instance case).
-/

/-- The atlas layout stored by `setTexture`
(`{columns, rows, count, scaleX, scaleY}`). -/
structure AtlasInfo where
  columns : ℤ
  rows : ℤ
  count : ℤ
  scaleX : ℚ
  scaleY : ℚ
deriving DecidableEq, Repr

/-- The mutable state of a `PanesShader` instance. -/
structure PanesState where
  maxPanes : ℕ
  baseSize : ℚ
  returnModeEnabled : Bool
  controlQuads : List (Vec3 × Vec3 × Vec3 × Vec3)
  instanceColors : List Vec3
  instanceScales : List ℚ
  instanceElevations : List ℚ
  instanceUvTransforms : List Vec4
  animationParams : List Shader.AnimParams
  time : ℚ
  activePanes : ℕ
  useTexture : Bool
  atlasInfo : Option AtlasInfo
  defaultElevation : ℚ
deriving DecidableEq, Repr

/-- The constructor plus `initialize()`: colors white, scales `0`,
elevations at the default, identity UV transforms, animation params
`(Math.random(), 0.1, 0, 0)` (the nondeterministic `Math.random()` is
supplied as the function `rand`), control points zero, time `0`. -/
def initPanesState (maxPanes : ℕ) (baseSize : ℚ) (returnMode : Bool)
    (baseElevation : ℚ) (rand : ℕ → ℚ) : PanesState where
  maxPanes := maxPanes
  baseSize := baseSize
  returnModeEnabled := returnMode
  controlQuads := List.replicate maxPanes (0, 0, 0, 0)
  instanceColors := List.replicate maxPanes ⟨1, 1, 1⟩
  instanceScales := List.replicate maxPanes 0
  instanceElevations := List.replicate maxPanes baseElevation
  instanceUvTransforms := List.replicate maxPanes ⟨0, 0, 1, 1⟩
  animationParams := (List.range maxPanes).map fun i => ⟨rand i, 1/10, 0, 0⟩
  time := 0
  activePanes := 0
  useTexture := false
  atlasInfo := none
  defaultElevation := baseElevation

/-- `setCurveControlPoints(index, controlPoints)`: no-op when the index is
out of range or fewer than 4 points are supplied; otherwise stores the
first 4 points and flips `visible = 1`. -/
def setCurveControlPoints (s : PanesState) (index : ℤ) (cps : List Vec3) : PanesState :=
  if index < 0 ∨ (s.maxPanes : ℤ) ≤ index then s
  else if cps.length < 4 then s
  else
    let i := index.toNat
    let ap := s.animationParams.getD i default
    { s with
      controlQuads := s.controlQuads.set i
        (cps.getD 0 0, cps.getD 1 0, cps.getD 2 0, cps.getD 3 0)
      animationParams := s.animationParams.set i { ap with visible := 1 } }

/-- `setReturnMode(enabled)`: one renderer-wide flag (a shader uniform). -/
def setReturnMode (s : PanesState) (enabled : Bool) : PanesState :=
  { s with returnModeEnabled := enabled }

/-- `setPaneColor(index, color)`. -/
def setPaneColor (s : PanesState) (index : ℤ) (c : Vec3) : PanesState :=
  if index < 0 ∨ (s.maxPanes : ℤ) ≤ index then s
  else { s with instanceColors := s.instanceColors.set index.toNat c }

/-- `setPaneSize(index, size)`: stores `size / baseSize`. -/
def setPaneSize (s : PanesState) (index : ℤ) (size : ℚ) : PanesState :=
  if index < 0 ∨ (s.maxPanes : ℤ) ≤ index then s
  else { s with instanceScales := s.instanceScales.set index.toNat (size / s.baseSize) }

/-- `setElevationOffset(index, offset)`. -/
def setElevationOffset (s : PanesState) (index : ℤ) (offset : ℚ) : PanesState :=
  if index < 0 ∨ (s.maxPanes : ℤ) ≤ index then s
  else { s with instanceElevations := s.instanceElevations.set index.toNat offset }

/-- `setAnimationSpeed(index, speed)`: back-solves a new phase from the
current time uniform so the fractional progress `time*speed + phase`
is unchanged, re-normalising it with `Math.floor`. -/
def setAnimationSpeed (s : PanesState) (index : ℤ) (speed : ℚ) : PanesState :=
  if index < 0 ∨ (s.maxPanes : ℤ) ≤ index then s
  else
    let i := index.toNat
    let ap := s.animationParams.getD i default
    let oldSpeed := ap.speed
    let oldPhase := ap.phase
    let timeUniform := s.time
    let currentProgress0 := timeUniform * oldSpeed + oldPhase
    let currentProgress := currentProgress0 - ⌊currentProgress0⌋
    let newPhase0 := currentProgress - timeUniform * speed
    let newPhase := newPhase0 - ⌊newPhase0⌋
    { s with animationParams :=
        s.animationParams.set i { ap with speed := speed, phase := newPhase } }

/-- `setTiltMode(index, mode)`: stores `1.0` for the string `'Tangent'`,
`0.0` for anything else. -/
def setTiltMode (s : PanesState) (index : ℤ) (mode : String) : PanesState :=
  if index < 0 ∨ (s.maxPanes : ℤ) ≤ index then s
  else
    let i := index.toNat
    let ap := s.animationParams.getD i default
    { s with animationParams :=
        s.animationParams.set i { ap with tiltMode := if mode = "Tangent" then 1 else 0 } }

/-- `hidePane(index)`: flips `visible = 0`. -/
def hidePane (s : PanesState) (index : ℤ) : PanesState :=
  if index < 0 ∨ (s.maxPanes : ℤ) ≤ index then s
  else
    let i := index.toNat
    let ap := s.animationParams.getD i default
    { s with animationParams :=
        s.animationParams.set i { ap with visible := 0 } }

/-- `update(deltaTime)`: advances the shared time uniform. -/
def update (s : PanesState) (deltaTime : ℚ) : PanesState :=
  { s with time := s.time + deltaTime }

/-- `setActivePaneCount(count)`. -/
def setActivePaneCount (s : PanesState) (count : ℕ) : PanesState :=
  { s with activePanes := min count s.maxPanes }

/-- `setTexture(texture, atlasInfo)`: records whether a texture is bound
and the atlas layout (dropped when no texture is supplied). -/
def setTexture (s : PanesState) (hasTexture : Bool) (atlas : Option AtlasInfo) : PanesState :=
  { s with
    useTexture := hasTexture
    atlasInfo := if hasTexture then atlas else none }

/-- `setTextureIndex(index, textureIndex)`: computes the UV rectangle of
the selected atlas tile (identity when no atlas is bound).  JavaScript
`%` is the truncated remainder `Int.tmod`; `Math.floor` of a
nonnegative integer quotient is integer division. -/
def setTextureIndex (s : PanesState) (index : ℤ) (textureIndex : ℤ) : PanesState :=
  if index < 0 ∨ (s.maxPanes : ℤ) ≤ index then s
  else
    let i := index.toNat
    match s.atlasInfo with
    | some a =>
      let columns := max 1 (if a.columns = 0 then 1 else a.columns)
      let rows := max 1 (if a.rows = 0 then 1 else a.rows)
      let totalSlots := columns * rows
      let count := max 1 (if a.count = 0 then totalSlots else a.count)
      let slot := ((textureIndex.tmod count) + count).tmod count
      let safeSlot := slot.tmod totalSlots
      let col := safeSlot.tmod columns
      let row := safeSlot / columns
      let scaleX := if a.scaleX = 0 then 1 / (columns : ℚ) else a.scaleX
      let scaleY := if a.scaleY = 0 then 1 / (rows : ℚ) else a.scaleY
      { s with instanceUvTransforms :=
          s.instanceUvTransforms.set i ⟨(col : ℚ) * scaleX, (row : ℚ) * scaleY, scaleX, scaleY⟩ }
    | none =>
      { s with instanceUvTransforms := s.instanceUvTransforms.set i ⟨0, 0, 1, 1⟩ }

/-- The phase slot invariant: the first animation parameter of every
instance lies in `[0, 1)`. -/
def PhaseInRange (s : PanesState) : Prop :=
  ∀ ap ∈ s.animationParams, 0 ≤ ap.phase ∧ ap.phase < 1

end PanesShader

/-- Reading back a just-written list element. -/
theorem getD_set_self {α : Type} (l : List α) (i : ℕ) (a d : α) (h : i < l.length) :
    (l.set i a).getD i d = a := by
  rw [List.getD_eq_getElem?_getD, List.getElem?_set_self (by simpa using h), Option.getD_some]

/-- Writing one list element leaves the others unchanged. -/
theorem getD_set_ne {α : Type} (l : List α) (i j : ℕ) (a d : α) (h : i ≠ j) :
    (l.set i a).getD j d = l.getD j d := by
  rw [List.getD_eq_getElem?_getD, List.getElem?_set_ne h, List.getD_eq_getElem?_getD]

/-- The algebraic core of the speed-change back-solve: re-normalising the
back-solved phase and re-evaluating the fractional progress recovers the
progress before the change. -/
theorem fract_backsolve (T os op ns : ℚ) :
    Int.fract (T * ns + Int.fract (Int.fract (T * os + op) - T * ns)) =
      Int.fract (T * os + op) := by
  have h : T * ns + Int.fract (Int.fract (T * os + op) - T * ns) =
      Int.fract (T * os + op) - (⌊Int.fract (T * os + op) - T * ns⌋ : ℚ) := by
    unfold Int.fract
    ring
  rw [h, Int.fract_sub_int, Int.fract_fract]

/-- C1: for every valid pane index and every new speed,
`PanesShader.setAnimationSpeed` leaves the shared time untouched, stores
the new speed, and back-solves a phase such that the evaluated curve
parameter `t = frac(time*speed + phase)` is unchanged across the call. -/
theorem setAnimationSpeed_preserves_progress (s : PanesShader.PanesState) (i : ℕ) (speed : ℚ)
    (hidx : i < s.maxPanes) (hlen : s.animationParams.length = s.maxPanes) :
    (PanesShader.setAnimationSpeed s i speed).time = s.time ∧
    ((PanesShader.setAnimationSpeed s i speed).animationParams.getD i default).speed = speed ∧
    Shader.shaderParamT
        ((PanesShader.setAnimationSpeed s i speed).animationParams.getD i default).phase
        ((PanesShader.setAnimationSpeed s i speed).animationParams.getD i default).speed
        (PanesShader.setAnimationSpeed s i speed).time =
      Shader.shaderParamT (s.animationParams.getD i default).phase
        (s.animationParams.getD i default).speed s.time := by
  have hif : ¬((i : ℤ) < 0 ∨ (s.maxPanes : ℤ) ≤ (i : ℤ)) := by
    push_neg
    exact ⟨Int.natCast_nonneg i, by exact_mod_cast hidx⟩
  have hl : i < s.animationParams.length := by rw [hlen]; exact hidx
  unfold PanesShader.setAnimationSpeed
  rw [if_neg hif]
  simp only [Int.toNat_natCast]
  refine ⟨?_, ?_, ?_⟩
  · trivial
  · rw [getD_set_self _ _ _ _ hl]
  · rw [getD_set_self _ _ _ _ hl]
    unfold Shader.shaderParamT
    rw [glslMod_one, glslMod_one]
    simp only [show ∀ x : ℚ, x - (⌊x⌋ : ℚ) = Int.fract x from fun _ => rfl]
    exact fract_backsolve s.time (s.animationParams.getD i default).speed
      (s.animationParams.getD i default).phase speed

/-- Witness for C1 at a concrete renderer state. -/
theorem setAnimationSpeed_preserves_progress_witness :
    (PanesShader.setAnimationSpeed
        (PanesShader.initPanesState 2 100 false 0 fun _ => 1/2) 0 (3/7)).time =
      (PanesShader.initPanesState 2 100 false 0 fun _ => 1/2).time ∧
    ((PanesShader.setAnimationSpeed
        (PanesShader.initPanesState 2 100 false 0 fun _ => 1/2) 0
        (3/7)).animationParams.getD 0 default).speed = 3/7 ∧
    Shader.shaderParamT
        ((PanesShader.setAnimationSpeed
            (PanesShader.initPanesState 2 100 false 0 fun _ => 1/2) 0
            (3/7)).animationParams.getD 0 default).phase
        ((PanesShader.setAnimationSpeed
            (PanesShader.initPanesState 2 100 false 0 fun _ => 1/2) 0
            (3/7)).animationParams.getD 0 default).speed
        (PanesShader.setAnimationSpeed
            (PanesShader.initPanesState 2 100 false 0 fun _ => 1/2) 0 (3/7)).time =
      Shader.shaderParamT
        ((PanesShader.initPanesState 2 100 false 0 fun _ => 1/2).animationParams.getD 0
            default).phase
        ((PanesShader.initPanesState 2 100 false 0 fun _ => 1/2).animationParams.getD 0
            default).speed
        (PanesShader.initPanesState 2 100 false 0 fun _ => 1/2).time :=
  setAnimationSpeed_preserves_progress
    (PanesShader.initPanesState 2 100 false 0 fun _ => 1/2) 0 (3/7)
    (by decide) (by decide)

open PanesShader

/-- A state whose animation parameter list agrees with `s` inherits the
phase invariant. -/
theorem phaseInRange_of_params {s t : PanesState} (h : PhaseInRange s)
    (he : t.animationParams = s.animationParams) : PhaseInRange t := by
  intro ap hap
  rw [he] at hap
  exact h ap hap

/-- Writing one animation-parameter slot whose phase is in range preserves
the phase invariant. -/
theorem phaseInRange_of_set {s t : PanesState} {i : ℕ} {ap' : Shader.AnimParams}
    (h : PhaseInRange s)
    (he : t.animationParams = s.animationParams.set i ap')
    (hp : 0 ≤ ap'.phase ∧ ap'.phase < 1) : PhaseInRange t := by
  intro ap hap
  rw [he] at hap
  exact forall_mem_set h hp ap hap

/-- Under the phase invariant, any slot read back with `getD` has its phase
in range (the default quadruple has phase `0`). -/
theorem phase_getD {s : PanesState} (h : PhaseInRange s) (i : ℕ) :
    0 ≤ (s.animationParams.getD i default).phase ∧
      (s.animationParams.getD i default).phase < 1 :=
  getD_prop _ _ _ h (by decide)

/-- Overwriting slot `i` with a quadruple carrying the same phase leaves
every slot's phase unchanged. -/
theorem phase_getD_set_copy (l : List Shader.AnimParams) (i j : ℕ) (ap' : Shader.AnimParams)
    (hp : ap'.phase = (l.getD i default).phase) :
    ((l.set i ap').getD j default).phase = (l.getD j default).phase := by
  by_cases hj : j < l.length
  · by_cases hij : i = j
    · subst hij
      rw [getD_set_self _ _ _ _ hj, hp]
    · rw [getD_set_ne _ _ _ _ _ hij]
  · rw [List.getD_eq_default _ _ (by rw [List.length_set]; omega),
      List.getD_eq_default _ _ (by omega)]

/-- C10: every stored phase (the first animation parameter) lies in `[0,1)`
after construction and is preserved there by every operation of the pane
batch renderer; `setAnimationSpeed` re-normalises the back-solved phase
with `Math.floor` before storing it; and no operation other than
`setAnimationSpeed` changes any slot's phase. -/
theorem phase_invariant_all_ops :
    (∀ (m : ℕ) (b : ℚ) (r : Bool) (e : ℚ) (rand : ℕ → ℚ),
        (∀ i, 0 ≤ rand i ∧ rand i < 1) →
        PhaseInRange (initPanesState m b r e rand)) ∧
    (∀ s idx cps, PhaseInRange s → PhaseInRange (setCurveControlPoints s idx cps)) ∧
    (∀ s en, PhaseInRange s → PhaseInRange (setReturnMode s en)) ∧
    (∀ s idx c, PhaseInRange s → PhaseInRange (setPaneColor s idx c)) ∧
    (∀ s idx sz, PhaseInRange s → PhaseInRange (setPaneSize s idx sz)) ∧
    (∀ s idx off, PhaseInRange s → PhaseInRange (setElevationOffset s idx off)) ∧
    (∀ s idx sp, PhaseInRange s → PhaseInRange (setAnimationSpeed s idx sp)) ∧
    (∀ s idx mo, PhaseInRange s → PhaseInRange (setTiltMode s idx mo)) ∧
    (∀ s idx, PhaseInRange s → PhaseInRange (hidePane s idx)) ∧
    (∀ s dt, PhaseInRange s → PhaseInRange (update s dt)) ∧
    (∀ s n, PhaseInRange s → PhaseInRange (setActivePaneCount s n)) ∧
    (∀ s ht a?, PhaseInRange s → PhaseInRange (setTexture s ht a?)) ∧
    (∀ s idx ti, PhaseInRange s → PhaseInRange (setTextureIndex s idx ti)) ∧
    (∀ s idx cps j,
        ((setCurveControlPoints s idx cps).animationParams.getD j default).phase =
          (s.animationParams.getD j default).phase) ∧
    (∀ s idx mo j,
        ((setTiltMode s idx mo).animationParams.getD j default).phase =
          (s.animationParams.getD j default).phase) ∧
    (∀ s idx j,
        ((hidePane s idx).animationParams.getD j default).phase =
          (s.animationParams.getD j default).phase) ∧
    (∀ s en, (setReturnMode s en).animationParams = s.animationParams) ∧
    (∀ s idx c, (setPaneColor s idx c).animationParams = s.animationParams) ∧
    (∀ s idx sz, (setPaneSize s idx sz).animationParams = s.animationParams) ∧
    (∀ s idx off, (setElevationOffset s idx off).animationParams = s.animationParams) ∧
    (∀ s dt, (update s dt).animationParams = s.animationParams) ∧
    (∀ s n, (setActivePaneCount s n).animationParams = s.animationParams) ∧
    (∀ s ht a?, (setTexture s ht a?).animationParams = s.animationParams) ∧
    (∀ s idx ti, (setTextureIndex s idx ti).animationParams = s.animationParams) := by
  refine ⟨?_, ?_, ?_, ?_, ?_, ?_, ?_, ?_, ?_, ?_, ?_, ?_, ?_, ?_, ?_, ?_, ?_, ?_, ?_,
    ?_, ?_, ?_, ?_, ?_⟩
  · intro m b r e rand hr ap hap
    simp only [initPanesState, List.mem_map, List.mem_range] at hap
    obtain ⟨i, -, rfl⟩ := hap
    exact hr i
  · intro s idx cps h
    unfold setCurveControlPoints
    split
    · exact h
    · split
      · exact h
      · exact phaseInRange_of_set h rfl (phase_getD h _)
  · intro s en h
    exact phaseInRange_of_params h rfl
  · intro s idx c h
    unfold setPaneColor
    split
    · exact h
    · exact phaseInRange_of_params h rfl
  · intro s idx sz h
    unfold setPaneSize
    split
    · exact h
    · exact phaseInRange_of_params h rfl
  · intro s idx off h
    unfold setElevationOffset
    split
    · exact h
    · exact phaseInRange_of_params h rfl
  · intro s idx sp h
    unfold setAnimationSpeed
    split
    · exact h
    · exact phaseInRange_of_set h rfl ⟨Int.fract_nonneg _, Int.fract_lt_one _⟩
  · intro s idx mo h
    unfold setTiltMode
    split
    · exact h
    · exact phaseInRange_of_set h rfl (phase_getD h _)
  · intro s idx h
    unfold hidePane
    split
    · exact h
    · exact phaseInRange_of_set h rfl (phase_getD h _)
  · intro s dt h
    exact phaseInRange_of_params h rfl
  · intro s n h
    exact phaseInRange_of_params h rfl
  · intro s ht a? h
    exact phaseInRange_of_params h rfl
  · intro s idx ti h
    unfold setTextureIndex
    split
    · exact h
    · split
      · exact phaseInRange_of_params h rfl
      · exact phaseInRange_of_params h rfl
  · intro s idx cps j
    unfold setCurveControlPoints
    split
    · rfl
    · split
      · rfl
      · exact phase_getD_set_copy _ _ _ _ rfl
  · intro s idx mo j
    unfold setTiltMode
    split
    · rfl
    · exact phase_getD_set_copy _ _ _ _ rfl
  · intro s idx j
    unfold hidePane
    split
    · rfl
    · exact phase_getD_set_copy _ _ _ _ rfl
  · intro s en
    rfl
  · intro s idx c
    unfold setPaneColor
    split <;> rfl
  · intro s idx sz
    unfold setPaneSize
    split <;> rfl
  · intro s idx off
    unfold setElevationOffset
    split <;> rfl
  · intro s dt
    rfl
  · intro s n
    rfl
  · intro s ht a?
    rfl
  · intro s idx ti
    unfold setTextureIndex
    split
    · rfl
    · split <;> rfl

/-- Witness for C10: the invariant holds on a concrete freshly built
renderer and survives a concrete speed change. -/
theorem phase_invariant_all_ops_witness :
    PhaseInRange (setAnimationSpeed (initPanesState 2 100 false 0 fun _ => 1/2) 0 (3/7)) :=
  phase_invariant_all_ops.2.2.2.2.2.2.1 _ 0 (3/7)
    (phase_invariant_all_ops.1 2 100 false 0 (fun _ => 1/2) fun _ => by norm_num)

/-- Modelled from the spec: `THREE.CatmullRomCurve3#getPoint` of the
external three.js library, which the repository calls but does not
contain.  Per the spec's glossary a Catmull-Rom spline is "a smooth curve
interpolated through an ordered set of control points such that the curve
passes exactly through every given point"; modelled as the uniform
Catmull-Rom spline through `pts` (the same cubic segment polynomial and
reflected-end-neighbor convention the repository's own vertex program
uses), with `t ∈ [0,1]` spanning the `pts.length - 1` segments uniformly
and the `t = 1` endpoint folded onto the last segment. -/
def catmullRomGetPoint (pts : List Vec3) (t : ℚ) : Vec3 :=
  if pts.length < 2 then pts.getD 0 0
  else
    let l := pts.length
    let p := ((l : ℚ) - 1) * t
    let ip := ⌊p⌋
    let iw : ℤ × ℚ := if p - ip = 0 ∧ ip = (l : ℤ) - 1 then (ip - 1, 1) else (ip, p - ip)
    let i : ℕ := iw.1.toNat
    let w := iw.2
    let pt := fun k => pts.getD k 0
    let pBefore := if 0 < i then pt (i - 1) else pt 0 + (pt 0 - pt 1)
    let pAfter := if i + 2 < l then pt (i + 2) else pt (l - 1) + (pt (l - 1) - pt (l - 2))
    Shader.evaluateCatmullRomSegment pBefore (pt i) (pt (i + 1)) pAfter w

/-- Modelled from the spec: `THREE.CatmullRomCurve3#getPoints(divisions)`,
sampling `getPoint` at `d / divisions` for `d = 0 .. divisions`
(`divisions + 1` points). -/
def catmullRomGetPoints (pts : List Vec3) (divisions : ℕ) : List Vec3 :=
  (List.range (divisions + 1)).map fun d => catmullRomGetPoint pts ((d : ℚ) / (divisions : ℚ))

namespace MergedGPUCurves

/-!
The `MergedGPUCurves` curve batch renderer (first document of
`MergedGPUCurves.js`).  The flat `Float32Array` position/colour buffers of
`maxCurves * segmentsPerCurve` points become `List Vec3` of that length;
a write past the end of the list is dropped, exactly as a typed-array
store out of bounds is.  `setDrawRange(0, n)` is recorded as the field
`drawRange := n`.
-/

/-- One entry of the `curveData` slot array. -/
structure CurveSlot where
  controlPoints : List Vec3
  color : Vec3
  visible : Bool
deriving DecidableEq, Repr

instance : Inhabited CurveSlot := ⟨⟨[], ⟨1, 1, 1⟩, false⟩⟩

/-- The mutable state of a `MergedGPUCurves` instance. -/
structure CurvesState where
  maxCurves : ℕ
  segmentsPerCurve : ℕ
  positions : List Vec3
  colors : List Vec3
  curveData : List CurveSlot
  currentCurveCount : ℕ
  drawRange : ℕ
  needsPositionUpdate : Bool
  needsColorUpdate : Bool
deriving DecidableEq, Repr

/-- Write the points of `pts` at consecutive buffer indices starting at
`off` (the body of the `setCurve` / `setCurveColor` / `hideCurve` write
loops); writes past the end of the buffer are dropped. -/
def writePoints (buf : List Vec3) (off : ℕ) : List Vec3 → List Vec3
  | [] => buf
  | p :: rest => writePoints (buf.set off p) (off + 1) rest

/-- The constructor plus `initialize()`: zero-filled buffers, white
invisible slots, nothing drawn. -/
def initCurvesState (maxCurves segmentsPerCurve : ℕ) : CurvesState where
  maxCurves := maxCurves
  segmentsPerCurve := segmentsPerCurve
  positions := List.replicate (maxCurves * segmentsPerCurve) 0
  colors := List.replicate (maxCurves * segmentsPerCurve) 0
  curveData := List.replicate maxCurves default
  currentCurveCount := 0
  drawRange := 0
  needsPositionUpdate := false
  needsColorUpdate := false

/-- `setCurve(curveIndex, controlPoints, color)`: bounds- and
arity-checked no-op on invalid input; otherwise stores the slot data,
samples the spline at `segmentsPerCurve` divisions (`segmentsPerCurve + 1`
points) and writes positions and the solid colour into the slot's buffer
region, raising the visible-curve count and draw range when the index is
beyond the current count. -/
def setCurve (s : CurvesState) (curveIndex : ℤ) (controlPoints : List Vec3)
    (color : Vec3) : CurvesState :=
  if curveIndex < 0 ∨ (s.maxCurves : ℤ) ≤ curveIndex then s
  else if controlPoints.length < 2 then s
  else
    let i := curveIndex.toNat
    let points := catmullRomGetPoints controlPoints s.segmentsPerCurve
    let pointOffset := i * s.segmentsPerCurve
    let raise := s.currentCurveCount ≤ i
    { s with
      curveData := s.curveData.set i ⟨controlPoints, color, true⟩
      positions := writePoints s.positions pointOffset points
      colors := writePoints s.colors pointOffset (points.map fun _ => color)
      needsPositionUpdate := true
      needsColorUpdate := true
      currentCurveCount := if raise then i + 1 else s.currentCurveCount
      drawRange := if raise then (i + 1) * s.segmentsPerCurve else s.drawRange }

/-- `setCurveColor(curveIndex, color)`: silently ignores an out-of-range
index or an invisible slot; otherwise rewrites the slot's colour sub-range
only. -/
def setCurveColor (s : CurvesState) (curveIndex : ℤ) (color : Vec3) : CurvesState :=
  if curveIndex < 0 ∨ (s.maxCurves : ℤ) ≤ curveIndex then s
  else
    let i := curveIndex.toNat
    let slot := s.curveData.getD i default
    if ¬slot.visible then s
    else
      { s with
        curveData := s.curveData.set i { slot with color := color }
        colors := writePoints s.colors (i * s.segmentsPerCurve)
          (List.replicate s.segmentsPerCurve color)
        needsColorUpdate := true }

/-- `hideCurve(curveIndex)`: flips the slot invisible and zeroes its
position sub-range. -/
def hideCurve (s : CurvesState) (curveIndex : ℤ) : CurvesState :=
  if curveIndex < 0 ∨ (s.maxCurves : ℤ) ≤ curveIndex then s
  else
    let i := curveIndex.toNat
    let slot := s.curveData.getD i default
    { s with
      curveData := s.curveData.set i { slot with visible := false }
      positions := writePoints s.positions (i * s.segmentsPerCurve)
        (List.replicate s.segmentsPerCurve 0)
      needsPositionUpdate := true }

/-- `setVisibleCurveCount(count)`: clamps to capacity and updates the draw
range.  -/
def setVisibleCurveCount (s : CurvesState) (count : ℕ) : CurvesState :=
  { s with
    currentCurveCount := min count s.maxCurves
    drawRange := min count s.maxCurves * s.segmentsPerCurve }

/-- `applyUpdates()`: clears both dirty flags (the upload itself lives in
the host rendering engine). -/
def applyUpdates (s : CurvesState) : CurvesState :=
  { s with needsPositionUpdate := false, needsColorUpdate := false }

/-- The sub-range of a flat buffer reserved for curve `i`
(`segmentsPerCurve` consecutive points starting at
`i * segmentsPerCurve`). -/
def subRange (buf : List Vec3) (i seg : ℕ) : List Vec3 :=
  (buf.drop (i * seg)).take seg

/-- `writePoints` never changes the buffer length. -/
theorem writePoints_length : ∀ (pts buf : List Vec3) (off : ℕ),
    (writePoints buf off pts).length = buf.length
  | [], _, _ => rfl
  | p :: rest, buf, off => by
    show (writePoints (buf.set off p) (off + 1) rest).length = buf.length
    rw [writePoints_length rest, List.length_set]

/-- A buffer entry strictly before the written window is untouched. -/
theorem writePoints_getElem?_lt : ∀ (pts buf : List Vec3) (off j : ℕ), j < off →
    (writePoints buf off pts)[j]? = buf[j]?
  | [], _, _, _, _ => rfl
  | p :: rest, buf, off, j, hj => by
    show (writePoints (buf.set off p) (off + 1) rest)[j]? = buf[j]?
    rw [writePoints_getElem?_lt rest _ _ _ (by omega), List.getElem?_set_ne (by omega)]

/-- A buffer entry at or beyond the end of the written window is
untouched. -/
theorem writePoints_getElem?_ge : ∀ (pts buf : List Vec3) (off j : ℕ),
    off + pts.length ≤ j → (writePoints buf off pts)[j]? = buf[j]?
  | [], _, _, _, _ => rfl
  | p :: rest, buf, off, j, hj => by
    simp only [List.length_cons] at hj
    show (writePoints (buf.set off p) (off + 1) rest)[j]? = buf[j]?
    rw [writePoints_getElem?_ge rest _ _ _ (by omega), List.getElem?_set_ne (by omega)]

/-- Inside the written window the buffer holds the written points (when
the window fits in the buffer). -/
theorem writePoints_getElem?_at : ∀ (pts buf : List Vec3) (off k : ℕ), k < pts.length →
    off + pts.length ≤ buf.length → (writePoints buf off pts)[off + k]? = pts[k]?
  | [], _, _, _, hk, _ => absurd hk (by simp)
  | p :: rest, buf, off, 0, _, hb => by
    simp only [List.length_cons] at hb
    rw [List.getElem?_cons_zero, Nat.add_zero]
    show (writePoints (buf.set off p) (off + 1) rest)[off]? = some p
    rw [writePoints_getElem?_lt rest _ _ _ (by omega)]
    exact List.getElem?_set_self (by omega)
  | p :: rest, buf, off, k + 1, hk, hb => by
    simp only [List.length_cons] at hk hb
    rw [List.getElem?_cons_succ]
    show (writePoints (buf.set off p) (off + 1) rest)[off + (k + 1)]? = rest[k]?
    have he : off + (k + 1) = (off + 1) + k := by omega
    rw [he, writePoints_getElem?_at rest _ _ _ (by omega)
      (by simp only [List.length_set]; omega)]

/-- Elements of a sub-range, read through `getElem?`. -/
theorem subRange_getElem? (buf : List Vec3) (i seg k : ℕ) :
    (subRange buf i seg)[k]? = if k < seg then buf[i * seg + k]? else none := by
  unfold subRange
  by_cases hk : k < seg
  · rw [if_pos hk, List.getElem?_take_of_lt hk, List.getElem?_drop]
  · rw [if_neg hk]
    apply List.getElem?_eq_none
    have h1 := List.length_take seg (buf.drop (i * seg))
    omega

/-- Writing a full window of exactly `seg` points at slot `i` makes that
slot's sub-range the written list. -/
theorem subRange_writePoints_self (buf : List Vec3) (i seg : ℕ) (pts : List Vec3)
    (hlenpts : pts.length = seg) (hb : (i + 1) * seg ≤ buf.length) :
    subRange (writePoints buf (i * seg) pts) i seg = pts := by
  apply List.ext_getElem?
  intro k
  have hwl : (writePoints buf (i * seg) pts).length = buf.length := writePoints_length pts buf _
  rw [subRange_getElem?]
  by_cases hk : k < seg
  · rw [if_pos hk, writePoints_getElem?_at pts buf _ _ (by omega) (by nlinarith [hb])]
  · rw [if_neg hk]
    symm
    apply List.getElem?_eq_none
    omega

/-- Writing a full window of exactly `seg` points at slot `i` leaves every
other slot's sub-range untouched. -/
theorem subRange_writePoints_ne (buf : List Vec3) (i j seg : ℕ) (pts : List Vec3)
    (hlenpts : pts.length = seg) (hne : j ≠ i) :
    subRange (writePoints buf (i * seg) pts) j seg = subRange buf j seg := by
  unfold subRange
  apply List.ext_getElem?
  intro k
  by_cases hk : k < seg
  · rw [List.getElem?_take_of_lt hk, List.getElem?_take_of_lt hk,
      List.getElem?_drop, List.getElem?_drop]
    rcases Nat.lt_or_ge j i with hj | hj
    · exact writePoints_getElem?_lt pts buf _ _
        (by calc j * seg + k < (j + 1) * seg := by nlinarith
          _ ≤ i * seg := Nat.mul_le_mul_right seg hj)
    · have hij : i < j := lt_of_le_of_ne hj fun he => hne he.symm
      exact writePoints_getElem?_ge pts buf _ _
        (by calc i * seg + pts.length = (i + 1) * seg := by rw [hlenpts]; ring
          _ ≤ j * seg := Nat.mul_le_mul_right seg hij
          _ ≤ j * seg + k := Nat.le_add_right _ _)
  · have h1 := List.length_take seg ((writePoints buf (i * seg) pts).drop (j * seg))
    have h2 := List.length_take seg (buf.drop (j * seg))
    rw [List.getElem?_eq_none (by omega), List.getElem?_eq_none (by omega)]

end MergedGPUCurves

open MergedGPUCurves

/-- C3: `setCurve` with an out-of-range index or fewer than 2 control
points is a complete no-op: the renderer state (position and colour
buffers, slot data, visible count, draw range, dirty flags) is unchanged. -/
theorem setCurve_invalid_noop (s : CurvesState) (curveIndex : ℤ) (cps : List Vec3) (c : Vec3)
    (h : curveIndex < 0 ∨ (s.maxCurves : ℤ) ≤ curveIndex ∨ cps.length < 2) :
    setCurve s curveIndex cps c = s := by
  unfold setCurve
  rcases h with h | h | h
  · rw [if_pos (Or.inl h)]
  · rw [if_pos (Or.inr h)]
  · by_cases hg : curveIndex < 0 ∨ (s.maxCurves : ℤ) ≤ curveIndex
    · rw [if_pos hg]
    · rw [if_neg hg, if_pos h]

/-- Witness for C3: the capacity scenario — a renderer built with
`maxCurves = 4` ignores `setCurve(4, ...)` entirely, so indices 0–3 keep
their data. -/
theorem setCurve_invalid_noop_witness :
    setCurve (initCurvesState 4 2) 4 [⟨0, 0, 0⟩, ⟨1, 1, 1⟩] ⟨1, 0, 0⟩ =
      initCurvesState 4 2 :=
  setCurve_invalid_noop (initCurvesState 4 2) 4 [⟨0, 0, 0⟩, ⟨1, 1, 1⟩] ⟨1, 0, 0⟩
    (Or.inr (Or.inl (by decide)))

/-- C9: a successful `setCurve` at an index at or beyond the current
visible-curve count raises the count to `index + 1` and extends the draw
range to `(index + 1) * segmentsPerCurve`; at an index below the count it
changes neither. -/
theorem setCurve_visible_count (s : CurvesState) (i : ℕ) (cps : List Vec3) (c : Vec3)
    (hidx : i < s.maxCurves) (hcps : 2 ≤ cps.length) :
    (s.currentCurveCount ≤ i →
        (setCurve s i cps c).currentCurveCount = i + 1 ∧
        (setCurve s i cps c).drawRange = (i + 1) * s.segmentsPerCurve) ∧
    (i < s.currentCurveCount →
        (setCurve s i cps c).currentCurveCount = s.currentCurveCount ∧
        (setCurve s i cps c).drawRange = s.drawRange) := by
  have hif : ¬((i : ℤ) < 0 ∨ (s.maxCurves : ℤ) ≤ (i : ℤ)) := by
    push_neg
    exact ⟨Int.natCast_nonneg i, by exact_mod_cast hidx⟩
  unfold setCurve
  rw [if_neg hif, if_neg (by omega)]
  simp only [Int.toNat_natCast]
  constructor
  · intro hle
    exact ⟨by simp only [if_pos hle], by simp only [if_pos hle]⟩
  · intro hlt
    have hn : ¬(s.currentCurveCount ≤ i) := by omega
    exact ⟨by simp only [if_neg hn], by simp only [if_neg hn]⟩

/-- Witness for C9 at a concrete renderer. -/
theorem setCurve_visible_count_witness :
    (setCurve (initCurvesState 4 2) 1 [⟨0, 0, 0⟩, ⟨1, 1, 1⟩] ⟨1, 0, 0⟩).currentCurveCount =
      1 + 1 ∧
    (setCurve (initCurvesState 4 2) 1 [⟨0, 0, 0⟩, ⟨1, 1, 1⟩] ⟨1, 0, 0⟩).drawRange =
      (1 + 1) * (initCurvesState 4 2).segmentsPerCurve :=
  (setCurve_visible_count (initCurvesState 4 2) 1 [⟨0, 0, 0⟩, ⟨1, 1, 1⟩] ⟨1, 0, 0⟩
    (by decide) (by decide)).1 (by decide)

/-- C4 (amended): on a *visible* slot, `setCurveColor` makes that slot's
colour sub-range the new colour, touches no position data, and leaves
every other slot's colour and position sub-ranges unchanged. -/
theorem setCurveColor_visible_slot (s : CurvesState) (i : ℕ) (c : Vec3)
    (hidx : i < s.maxCurves)
    (hvis : (s.curveData.getD i default).visible = true)
    (hlen : s.colors.length = s.maxCurves * s.segmentsPerCurve) :
    subRange (setCurveColor s i c).colors i s.segmentsPerCurve =
      List.replicate s.segmentsPerCurve c ∧
    (setCurveColor s i c).positions = s.positions ∧
    ∀ j, j ≠ i →
      subRange (setCurveColor s i c).colors j s.segmentsPerCurve =
        subRange s.colors j s.segmentsPerCurve := by
  have hif : ¬((i : ℤ) < 0 ∨ (s.maxCurves : ℤ) ≤ (i : ℤ)) := by
    push_neg
    exact ⟨Int.natCast_nonneg i, by exact_mod_cast hidx⟩
  unfold setCurveColor
  rw [if_neg hif]
  simp only [Int.toNat_natCast]
  rw [if_neg (by rw [hvis]; simp)]
  refine ⟨?_, rfl, ?_⟩
  · apply subRange_writePoints_self _ _ _ _ (List.length_replicate _ _)
    rw [hlen]
    exact Nat.mul_le_mul_right _ (by omega)
  · intro j hj
    exact subRange_writePoints_ne _ _ _ _ _ (List.length_replicate _ _) hj

/-- Witness for the amended C4: recolouring a slot made visible by a
previous `setCurve`. -/
theorem setCurveColor_visible_slot_witness :
    subRange
        (setCurveColor (setCurve (initCurvesState 2 2) 0 [⟨0, 0, 0⟩, ⟨1, 1, 1⟩] ⟨1, 0, 0⟩) 0
          ⟨0, 1, 0⟩).colors 0
        (setCurve (initCurvesState 2 2) 0 [⟨0, 0, 0⟩, ⟨1, 1, 1⟩] ⟨1, 0, 0⟩).segmentsPerCurve =
      List.replicate
        (setCurve (initCurvesState 2 2) 0 [⟨0, 0, 0⟩, ⟨1, 1, 1⟩] ⟨1, 0, 0⟩).segmentsPerCurve
        ⟨0, 1, 0⟩ ∧
    (setCurveColor (setCurve (initCurvesState 2 2) 0 [⟨0, 0, 0⟩, ⟨1, 1, 1⟩] ⟨1, 0, 0⟩) 0
        ⟨0, 1, 0⟩).positions =
      (setCurve (initCurvesState 2 2) 0 [⟨0, 0, 0⟩, ⟨1, 1, 1⟩] ⟨1, 0, 0⟩).positions ∧
    ∀ j, j ≠ 0 →
      subRange
          (setCurveColor (setCurve (initCurvesState 2 2) 0 [⟨0, 0, 0⟩, ⟨1, 1, 1⟩] ⟨1, 0, 0⟩) 0
            ⟨0, 1, 0⟩).colors j
          (setCurve (initCurvesState 2 2) 0
            [⟨0, 0, 0⟩, ⟨1, 1, 1⟩] ⟨1, 0, 0⟩).segmentsPerCurve =
        subRange (setCurve (initCurvesState 2 2) 0 [⟨0, 0, 0⟩, ⟨1, 1, 1⟩] ⟨1, 0, 0⟩).colors j
          (setCurve (initCurvesState 2 2) 0
            [⟨0, 0, 0⟩, ⟨1, 1, 1⟩] ⟨1, 0, 0⟩).segmentsPerCurve :=
  setCurveColor_visible_slot
    (setCurve (initCurvesState 2 2) 0 [⟨0, 0, 0⟩, ⟨1, 1, 1⟩] ⟨1, 0, 0⟩) 0 ⟨0, 1, 0⟩
    (by decide) (by decide) (by decide)

/-- Counterexample to C4 as stated: on a freshly constructed renderer the
slot is not yet visible, so `setCurveColor(0, red)` is a no-op and the
colour sub-range does not read back red. -/
theorem setCurveColor_fresh_slot_cex :
    subRange (setCurveColor (initCurvesState 1 2) 0 ⟨1, 0, 0⟩).colors 0 2 ≠
      List.replicate 2 (⟨1, 0, 0⟩ : Vec3) := by decide

/-- C6: `hideCurve` zeroes the slot's entire position sub-range, leaves
the colour buffer and all other slots' position sub-ranges untouched, and
the zeroed region survives a later `setVisibleCurveCount n` that keeps the
index inside the draw-range cutoff. -/
theorem hideCurve_zeroes_positions (s : CurvesState) (i : ℕ)
    (hidx : i < s.maxCurves)
    (hlen : s.positions.length = s.maxCurves * s.segmentsPerCurve) :
    subRange (hideCurve s i).positions i s.segmentsPerCurve =
      List.replicate s.segmentsPerCurve 0 ∧
    (hideCurve s i).colors = s.colors ∧
    (∀ j, j ≠ i →
      subRange (hideCurve s i).positions j s.segmentsPerCurve =
        subRange s.positions j s.segmentsPerCurve) ∧
    ∀ n, i < n → n ≤ s.maxCurves →
      i < (setVisibleCurveCount (hideCurve s i) n).currentCurveCount ∧
      subRange (setVisibleCurveCount (hideCurve s i) n).positions i s.segmentsPerCurve =
        List.replicate s.segmentsPerCurve 0 := by
  have hif : ¬((i : ℤ) < 0 ∨ (s.maxCurves : ℤ) ≤ (i : ℤ)) := by
    push_neg
    exact ⟨Int.natCast_nonneg i, by exact_mod_cast hidx⟩
  have hzero : subRange (hideCurve s i).positions i s.segmentsPerCurve =
      List.replicate s.segmentsPerCurve 0 := by
    unfold hideCurve
    rw [if_neg hif]
    simp only [Int.toNat_natCast]
    apply subRange_writePoints_self _ _ _ _ (List.length_replicate _ _)
    rw [hlen]
    exact Nat.mul_le_mul_right _ (by omega)
  refine ⟨hzero, ?_, ?_, ?_⟩
  · unfold hideCurve
    rw [if_neg hif]
  · intro j hj
    unfold hideCurve
    rw [if_neg hif]
    simp only [Int.toNat_natCast]
    exact subRange_writePoints_ne _ _ _ _ _ (List.length_replicate _ _) hj
  · intro n hn hnm
    refine ⟨?_, hzero⟩
    show i < min n (hideCurve s i).maxCurves
    have hmax : (hideCurve s i).maxCurves = s.maxCurves := by
      unfold hideCurve
      rw [if_neg hif]
    rw [hmax]
    omega

/-- Witness for C6 at a concrete renderer holding one set curve. -/
theorem hideCurve_zeroes_positions_witness :
    subRange
        (hideCurve (setCurve (initCurvesState 2 2) 0 [⟨0, 0, 0⟩, ⟨1, 1, 1⟩] ⟨1, 0, 0⟩)
          0).positions 0
        (setCurve (initCurvesState 2 2) 0 [⟨0, 0, 0⟩, ⟨1, 1, 1⟩] ⟨1, 0, 0⟩).segmentsPerCurve =
      List.replicate
        (setCurve (initCurvesState 2 2) 0 [⟨0, 0, 0⟩, ⟨1, 1, 1⟩] ⟨1, 0, 0⟩).segmentsPerCurve
        0 ∧
    (hideCurve (setCurve (initCurvesState 2 2) 0 [⟨0, 0, 0⟩, ⟨1, 1, 1⟩] ⟨1, 0, 0⟩) 0).colors =
      (setCurve (initCurvesState 2 2) 0 [⟨0, 0, 0⟩, ⟨1, 1, 1⟩] ⟨1, 0, 0⟩).colors ∧
    (∀ j, j ≠ 0 →
      subRange
          (hideCurve (setCurve (initCurvesState 2 2) 0 [⟨0, 0, 0⟩, ⟨1, 1, 1⟩] ⟨1, 0, 0⟩)
            0).positions j
          (setCurve (initCurvesState 2 2) 0
            [⟨0, 0, 0⟩, ⟨1, 1, 1⟩] ⟨1, 0, 0⟩).segmentsPerCurve =
        subRange (setCurve (initCurvesState 2 2) 0 [⟨0, 0, 0⟩, ⟨1, 1, 1⟩] ⟨1, 0, 0⟩).positions
          j
          (setCurve (initCurvesState 2 2) 0
            [⟨0, 0, 0⟩, ⟨1, 1, 1⟩] ⟨1, 0, 0⟩).segmentsPerCurve) ∧
    ∀ n, 0 < n →
      n ≤ (setCurve (initCurvesState 2 2) 0 [⟨0, 0, 0⟩, ⟨1, 1, 1⟩] ⟨1, 0, 0⟩).maxCurves →
      0 < (setVisibleCurveCount
            (hideCurve (setCurve (initCurvesState 2 2) 0 [⟨0, 0, 0⟩, ⟨1, 1, 1⟩] ⟨1, 0, 0⟩) 0)
            n).currentCurveCount ∧
      subRange
          (setVisibleCurveCount
            (hideCurve (setCurve (initCurvesState 2 2) 0 [⟨0, 0, 0⟩, ⟨1, 1, 1⟩] ⟨1, 0, 0⟩) 0)
            n).positions 0
          (setCurve (initCurvesState 2 2) 0
            [⟨0, 0, 0⟩, ⟨1, 1, 1⟩] ⟨1, 0, 0⟩).segmentsPerCurve =
        List.replicate
          (setCurve (initCurvesState 2 2) 0
            [⟨0, 0, 0⟩, ⟨1, 1, 1⟩] ⟨1, 0, 0⟩).segmentsPerCurve
          0 :=
  hideCurve_zeroes_positions
    (setCurve (initCurvesState 2 2) 0 [⟨0, 0, 0⟩, ⟨1, 1, 1⟩] ⟨1, 0, 0⟩) 0
    (by decide) (by decide)

/-- JavaScript truncation toward zero (`Math.trunc`, the rounding of the
`%` operator). -/
def jsTrunc (q : ℚ) : ℤ := if 0 ≤ q then ⌊q⌋ else ⌈q⌉

/-- The JavaScript `%` operator: truncated remainder. -/
def jsMod (x y : ℚ) : ℚ := x - y * jsTrunc (x / y)

/-- `jsMod a 2 = a` on `[0, 2)`. -/
theorem jsMod_two_of_lt (a : ℚ) (h0 : 0 ≤ a) (h2 : a < 2) : jsMod a 2 = a := by
  unfold jsMod jsTrunc
  rw [if_pos (by positivity)]
  rw [Int.floor_eq_zero_iff.mpr ⟨by positivity, by linarith [(div_lt_one (by norm_num : (0:ℚ) < 2)).mpr h2]⟩]
  simp

namespace Flight

/-!
The `Flight` facade of `main_gpu.js`: the CPU time-to-parameter mapping of
`update(deltaTime)` and the control-point resampling for the shader-based
pane renderer.
-/

/-- The parameter computation of `Flight.update`:
`t = animationTime % 1`, replaced in return-flight mode by the ping-pong
mapping of `cycle = animationTime % 2`. -/
def paramT (animationTime : ℚ) (returnFlight : Bool) : ℚ :=
  let t := jsMod animationTime 1
  if returnFlight then
    let cycle := jsMod animationTime 2
    if 1 < cycle then 2 - cycle else cycle
  else t

/-- `Flight.resampleTo4Points(controlPoints)`: a 4-point list is returned
as-is; anything else is resampled by evaluating the Catmull-Rom curve
through the input at `t = 0, 0.333, 0.666, 1`. -/
def resampleTo4Points (controlPoints : List Vec3) : List Vec3 :=
  if controlPoints.length = 4 then controlPoints
  else
    [catmullRomGetPoint controlPoints 0,
     catmullRomGetPoint controlPoints (333/1000),
     catmullRomGetPoint controlPoints (666/1000),
     catmullRomGetPoint controlPoints 1]

/-- The resampling contract exactly as the claim states it: spline
evaluation at `t = 0, 1/3, 2/3, 1`.  Written from the spec's words, to be
compared with the source-derived `resampleTo4Points`. -/
def specResampleTo4PointsThirds (controlPoints : List Vec3) : List Vec3 :=
  if controlPoints.length = 4 then controlPoints
  else
    [catmullRomGetPoint controlPoints 0,
     catmullRomGetPoint controlPoints (1/3),
     catmullRomGetPoint controlPoints (2/3),
     catmullRomGetPoint controlPoints 1]

end Flight

/-- C2 (amended): `resampleTo4Points` returns a 4-point input unchanged
(no spline evaluation), and resamples any other input by evaluating the
Catmull-Rom spline through it at `t = 0, 0.333, 0.666, 1`. -/
theorem resampleTo4Points_amended :
    (∀ cps : List Vec3, cps.length = 4 → Flight.resampleTo4Points cps = cps) ∧
    (∀ cps : List Vec3, cps.length ≠ 4 →
      Flight.resampleTo4Points cps =
        [catmullRomGetPoint cps 0, catmullRomGetPoint cps (333/1000),
         catmullRomGetPoint cps (666/1000), catmullRomGetPoint cps 1]) := by
  constructor <;> intro cps h <;> simp only [Flight.resampleTo4Points, h, if_true, if_false,
    reduceIte]

/-- Witness for the amended C2 on concrete 4-point and 5-point inputs. -/
theorem resampleTo4Points_amended_witness :
    Flight.resampleTo4Points [⟨0, 0, 0⟩, ⟨1, 0, 0⟩, ⟨1, 1, 0⟩, ⟨0, 1, 0⟩] =
      [⟨0, 0, 0⟩, ⟨1, 0, 0⟩, ⟨1, 1, 0⟩, ⟨0, 1, 0⟩] ∧
    Flight.resampleTo4Points [⟨0, 0, 0⟩, ⟨1, 0, 0⟩, ⟨2, 0, 0⟩, ⟨3, 0, 0⟩, ⟨4, 0, 0⟩] =
      [catmullRomGetPoint [⟨0, 0, 0⟩, ⟨1, 0, 0⟩, ⟨2, 0, 0⟩, ⟨3, 0, 0⟩, ⟨4, 0, 0⟩] 0,
       catmullRomGetPoint [⟨0, 0, 0⟩, ⟨1, 0, 0⟩, ⟨2, 0, 0⟩, ⟨3, 0, 0⟩, ⟨4, 0, 0⟩] (333/1000),
       catmullRomGetPoint [⟨0, 0, 0⟩, ⟨1, 0, 0⟩, ⟨2, 0, 0⟩, ⟨3, 0, 0⟩, ⟨4, 0, 0⟩] (666/1000),
       catmullRomGetPoint [⟨0, 0, 0⟩, ⟨1, 0, 0⟩, ⟨2, 0, 0⟩, ⟨3, 0, 0⟩, ⟨4, 0, 0⟩] 1] :=
  ⟨resampleTo4Points_amended.1 _ (by decide),
   resampleTo4Points_amended.2 _ (by decide)⟩

/-- Counterexample to C2 as stated: on 5 equally spaced collinear points
(where every Catmull-Rom variant is the linear parameterisation), sampling
at the source's `0.333` differs from the claimed `1/3`. -/
theorem resampleTo4Points_thirds_cex :
    Flight.resampleTo4Points [⟨0, 0, 0⟩, ⟨1, 0, 0⟩, ⟨2, 0, 0⟩, ⟨3, 0, 0⟩, ⟨4, 0, 0⟩] ≠
      Flight.specResampleTo4PointsThirds
        [⟨0, 0, 0⟩, ⟨1, 0, 0⟩, ⟨2, 0, 0⟩, ⟨3, 0, 0⟩, ⟨4, 0, 0⟩] := by
  have hA : catmullRomGetPoint [⟨0, 0, 0⟩, ⟨1, 0, 0⟩, ⟨2, 0, 0⟩, ⟨3, 0, 0⟩, ⟨4, 0, 0⟩]
      (333/1000) = ⟨333/250, 0, 0⟩ := by
    unfold catmullRomGetPoint
    norm_num [Shader.evaluateCatmullRomSegment, List.getD]
  have hB : catmullRomGetPoint [⟨0, 0, 0⟩, ⟨1, 0, 0⟩, ⟨2, 0, 0⟩, ⟨3, 0, 0⟩, ⟨4, 0, 0⟩]
      (1/3) = ⟨4/3, 0, 0⟩ := by
    unfold catmullRomGetPoint
    norm_num [Shader.evaluateCatmullRomSegment, List.getD]
  intro heq
  rw [Flight.resampleTo4Points, Flight.specResampleTo4PointsThirds,
    if_neg (by decide), if_neg (by decide), hA, hB] at heq
  have hx := congrArg (fun l : List Vec3 => (l.getD 1 0).x) heq
  norm_num [List.getD] at hx

/-- C8: with return mode enabled, the CPU time-to-parameter mapping is
symmetric over one full period: `t(x) = t(2 - x)` for all `x ∈ [0, 2]`. -/
theorem returnMode_pingpong_symmetric (x : ℚ) (h0 : 0 ≤ x) (h2 : x ≤ 2) :
    Flight.paramT x true = Flight.paramT (2 - x) true := by
  rcases eq_or_lt_of_le h2 with heq | hlt
  · subst heq
    norm_num [Flight.paramT, jsMod, jsTrunc]
  · rcases eq_or_lt_of_le h0 with heq0 | hpos
    · rw [← heq0]
      norm_num [Flight.paramT, jsMod, jsTrunc]
    · have hm1 := jsMod_two_of_lt x h0 hlt
      have hm2 := jsMod_two_of_lt (2 - x) (by linarith) (by linarith)
      simp only [Flight.paramT, hm1, hm2, if_true]
      split_ifs <;> linarith

/-- Witness for C8 at `x = 1/2`. -/
theorem returnMode_pingpong_symmetric_witness :
    Flight.paramT (1/2) true = Flight.paramT (2 - 1/2) true :=
  returnMode_pingpong_symmetric (1/2) (by norm_num) (by norm_num)

/-- C7: any pane instance whose visibility flag is below `0.5` is
collapsed by the vertex program to the degenerate clip-space position
`(0,0,0,0)`, whatever its control points, scale, speed, phase, tilt mode,
the matrices, the normalisation, or the shared time. -/
theorem invisible_pane_collapses (nrm : Vec3 → Vec3) (projectionMatrix modelViewMatrix : Mat4)
    (p0 p1 p2 p3 : Vec3) (instanceScale : ℚ) (ap : Shader.AnimParams) (position : Vec3)
    (time : ℚ) (h : ap.visible < 1/2) :
    Shader.vertexMain nrm projectionMatrix modelViewMatrix p0 p1 p2 p3 instanceScale ap
      position time = ⟨0, 0, 0, 0⟩ := by
  unfold Shader.vertexMain
  rw [if_pos h]

/-- Witness for C7 at a concrete hidden instance. -/
theorem invisible_pane_collapses_witness :
    Shader.vertexMain id
      ⟨⟨1, 0, 0, 0⟩, ⟨0, 1, 0, 0⟩, ⟨0, 0, 1, 0⟩, ⟨0, 0, 0, 1⟩⟩
      ⟨⟨1, 0, 0, 0⟩, ⟨0, 1, 0, 0⟩, ⟨0, 0, 1, 0⟩, ⟨0, 0, 0, 1⟩⟩
      ⟨0, 0, 0⟩ ⟨100, 0, 0⟩ ⟨100, 100, 0⟩ ⟨0, 100, 0⟩ 1 ⟨1/4, 1/10, 0, 0⟩ ⟨1, 1, 0⟩ 7 =
      ⟨0, 0, 0, 0⟩ :=
  invisible_pane_collapses id _ _ _ _ _ _ 1 ⟨1/4, 1/10, 0, 0⟩ _ 7 (by norm_num)

/-- A Catmull-Rom segment starts at its second argument. -/
theorem evaluateCatmullRomSegment_zero (p0 p1 p2 p3 : Vec3) :
    Shader.evaluateCatmullRomSegment p0 p1 p2 p3 0 = p1 := by
  simp only [Shader.evaluateCatmullRomSegment, Vec3.smul_def, Vec3.add_def, Vec3.sub_def,
    Vec3.neg_def, Vec3.ext_iff]
  refine ⟨by ring, by ring, by ring⟩

/-- A Catmull-Rom segment ends at its third argument. -/
theorem evaluateCatmullRomSegment_one (p0 p1 p2 p3 : Vec3) :
    Shader.evaluateCatmullRomSegment p0 p1 p2 p3 1 = p2 := by
  simp only [Shader.evaluateCatmullRomSegment, Vec3.smul_def, Vec3.add_def, Vec3.sub_def,
    Vec3.neg_def, Vec3.ext_iff]
  refine ⟨by ring, by ring, by ring⟩

/-- First branch of the shader's spline evaluation (`t < 0.333`). -/
theorem evalPos_first (p0 p1 p2 p3 : Vec3) (t : ℚ) (h : t < 333/1000) :
    Shader.evaluateCatmullRomPos p0 p1 p2 p3 t =
      Shader.evaluateCatmullRomSegment (p0 + (p0 - p1)) p0 p1 p2 (t / (333/1000)) := by
  unfold Shader.evaluateCatmullRomPos Shader.evaluateCatmullRom
  rw [if_pos h]

/-- Middle branch of the shader's spline evaluation
(`0.333 ≤ t < 0.666`): all four real control points, no synthetic
neighbor. -/
theorem evalPos_mid (p0 p1 p2 p3 : Vec3) (t : ℚ) (h1 : 333/1000 ≤ t) (h2 : t < 666/1000) :
    Shader.evaluateCatmullRomPos p0 p1 p2 p3 t =
      Shader.evaluateCatmullRomSegment p0 p1 p2 p3 ((t - 333/1000) / (333/1000)) := by
  unfold Shader.evaluateCatmullRomPos Shader.evaluateCatmullRom
  rw [if_neg (not_lt.mpr h1), if_pos h2]

/-- Last branch of the shader's spline evaluation (`t ≥ 0.666`), with the
residual interval normalised by `0.334`. -/
theorem evalPos_last (p0 p1 p2 p3 : Vec3) (t : ℚ) (h : 666/1000 ≤ t) :
    Shader.evaluateCatmullRomPos p0 p1 p2 p3 t =
      Shader.evaluateCatmullRomSegment p1 p2 p3 (p3 + (p3 - p2)) ((t - 666/1000) / (334/1000)) := by
  unfold Shader.evaluateCatmullRomPos Shader.evaluateCatmullRom
  rw [if_neg (not_lt.mpr (le_trans (by norm_num) h)), if_neg (not_lt.mpr h)]

/-- C5 (amended): the vertex program's spline evaluation is three cubic
Catmull-Rom segments partitioned at `t ∈ [0, 0.333)`, `[0.333, 0.666)`,
`[0.666, 1]` (the source literals, not exactly thirds), the outer segments
using a synthetic neighbor extrapolated by reflection and the middle one
the four real points; the curve passes exactly through all 4 supplied
points (`t = 0 ↦ p0`, first join `↦ p1`, second join `↦ p2`, `t = 1 ↦
p3`); and in the end-to-end scenario (square control points, speed `0.1`,
clock at `3.333`, phase `0`) the evaluated position is within `0.1` of the
second control point. -/
theorem paneSpline_amended :
    (∀ (p0 p1 p2 p3 : Vec3) (t : ℚ), t < 333/1000 →
        Shader.evaluateCatmullRomPos p0 p1 p2 p3 t =
          Shader.evaluateCatmullRomSegment (p0 + (p0 - p1)) p0 p1 p2 (t / (333/1000))) ∧
    (∀ (p0 p1 p2 p3 : Vec3) (t : ℚ), 333/1000 ≤ t → t < 666/1000 →
        Shader.evaluateCatmullRomPos p0 p1 p2 p3 t =
          Shader.evaluateCatmullRomSegment p0 p1 p2 p3 ((t - 333/1000) / (333/1000))) ∧
    (∀ (p0 p1 p2 p3 : Vec3) (t : ℚ), 666/1000 ≤ t →
        Shader.evaluateCatmullRomPos p0 p1 p2 p3 t =
          Shader.evaluateCatmullRomSegment p1 p2 p3 (p3 + (p3 - p2))
            ((t - 666/1000) / (334/1000))) ∧
    (∀ p0 p1 p2 p3 : Vec3,
        Shader.evaluateCatmullRomPos p0 p1 p2 p3 0 = p0 ∧
        Shader.evaluateCatmullRomPos p0 p1 p2 p3 (333/1000) = p1 ∧
        Shader.evaluateCatmullRomPos p0 p1 p2 p3 (666/1000) = p2 ∧
        Shader.evaluateCatmullRomPos p0 p1 p2 p3 1 = p3) ∧
    ((Shader.evaluateCatmullRomPos ⟨0, 0, 0⟩ ⟨100, 0, 0⟩ ⟨100, 100, 0⟩ ⟨0, 100, 0⟩
          (Shader.shaderParamT 0 (1/10) (3333/1000))).x - 100) ^ 2 +
      (Shader.evaluateCatmullRomPos ⟨0, 0, 0⟩ ⟨100, 0, 0⟩ ⟨100, 100, 0⟩ ⟨0, 100, 0⟩
          (Shader.shaderParamT 0 (1/10) (3333/1000))).y ^ 2 +
      (Shader.evaluateCatmullRomPos ⟨0, 0, 0⟩ ⟨100, 0, 0⟩ ⟨100, 100, 0⟩ ⟨0, 100, 0⟩
          (Shader.shaderParamT 0 (1/10) (3333/1000))).z ^ 2 < (1/10) ^ 2 := by
  have ht : Shader.shaderParamT 0 (1/10) (3333/1000) = 3333/10000 := by
    unfold Shader.shaderParamT
    rw [glslMod_one]
    norm_num [Int.fract]
  refine ⟨evalPos_first, evalPos_mid, evalPos_last, ?_, ?_⟩
  · intro p0 p1 p2 p3
    refine ⟨?_, ?_, ?_, ?_⟩
    · rw [evalPos_first _ _ _ _ 0 (by norm_num), zero_div, evaluateCatmullRomSegment_zero]
    · rw [evalPos_mid _ _ _ _ _ (le_refl _) (by norm_num),
        show ((333:ℚ)/1000 - 333/1000) / (333/1000) = 0 by norm_num,
        evaluateCatmullRomSegment_zero]
    · rw [evalPos_last _ _ _ _ _ (le_refl _),
        show ((666:ℚ)/1000 - 666/1000) / (334/1000) = 0 by norm_num,
        evaluateCatmullRomSegment_zero]
    · rw [evalPos_last _ _ _ _ 1 (by norm_num),
        show ((1:ℚ) - 666/1000) / (334/1000) = 1 by norm_num,
        evaluateCatmullRomSegment_one]
  · rw [ht, evalPos_mid _ _ _ _ _ (by norm_num) (by norm_num)]
    norm_num [Shader.evaluateCatmullRomSegment]

/-- Witness for C5's branch characterisations at concrete parameters. -/
theorem paneSpline_amended_witness :
    Shader.evaluateCatmullRomPos ⟨0, 0, 0⟩ ⟨100, 0, 0⟩ ⟨100, 100, 0⟩ ⟨0, 100, 0⟩ (1/10) =
      Shader.evaluateCatmullRomSegment
        ((⟨0, 0, 0⟩ : Vec3) + ((⟨0, 0, 0⟩ : Vec3) - ⟨100, 0, 0⟩)) ⟨0, 0, 0⟩ ⟨100, 0, 0⟩
        ⟨100, 100, 0⟩ ((1/10) / (333/1000)) ∧
    Shader.evaluateCatmullRomPos ⟨0, 0, 0⟩ ⟨100, 0, 0⟩ ⟨100, 100, 0⟩ ⟨0, 100, 0⟩ (1/2) =
      Shader.evaluateCatmullRomSegment ⟨0, 0, 0⟩ ⟨100, 0, 0⟩ ⟨100, 100, 0⟩ ⟨0, 100, 0⟩
        ((1/2 - 333/1000) / (333/1000)) ∧
    Shader.evaluateCatmullRomPos ⟨0, 0, 0⟩ ⟨100, 0, 0⟩ ⟨100, 100, 0⟩ ⟨0, 100, 0⟩ (9/10) =
      Shader.evaluateCatmullRomSegment ⟨100, 0, 0⟩ ⟨100, 100, 0⟩ ⟨0, 100, 0⟩
        ((⟨0, 100, 0⟩ : Vec3) + ((⟨0, 100, 0⟩ : Vec3) - ⟨100, 100, 0⟩))
        ((9/10 - 666/1000) / (334/1000)) ∧
    Shader.evaluateCatmullRomPos ⟨0, 0, 0⟩ ⟨100, 0, 0⟩ ⟨100, 100, 0⟩ ⟨0, 100, 0⟩ 0 =
      ⟨0, 0, 0⟩ :=
  ⟨paneSpline_amended.1 _ _ _ _ (1/10) (by norm_num),
   paneSpline_amended.2.1 _ _ _ _ (1/2) (by norm_num) (by norm_num),
   paneSpline_amended.2.2.1 _ _ _ _ (9/10) (by norm_num),
   (paneSpline_amended.2.2.2.1 ⟨0, 0, 0⟩ ⟨100, 0, 0⟩ ⟨100, 100, 0⟩ ⟨0, 100, 0⟩).1⟩

/-- Counterexample to C5 as stated: at `t = 0.333` the source evaluator
(partitioned at the literal `0.333`) is already on the middle segment and
returns exactly `p1`, while the spec's `1/3`-partitioned evaluator is
still on the first segment and returns a different point. -/
theorem paneSpline_thirds_cex :
    Shader.evaluateCatmullRomPos ⟨0, 0, 0⟩ ⟨100, 0, 0⟩ ⟨100, 100, 0⟩ ⟨0, 100, 0⟩ (333/1000) ≠
      specEvaluateCatmullRomThirds ⟨0, 0, 0⟩ ⟨100, 0, 0⟩ ⟨100, 100, 0⟩ ⟨0, 100, 0⟩
        (333/1000) := by
  have hL : Shader.evaluateCatmullRomPos ⟨0, 0, 0⟩ ⟨100, 0, 0⟩ ⟨100, 100, 0⟩ ⟨0, 100, 0⟩
      (333/1000) = ⟨100, 0, 0⟩ := by
    rw [evalPos_mid _ _ _ _ _ (le_refl _) (by norm_num),
      show ((333:ℚ)/1000 - 333/1000) / (333/1000) = 0 by norm_num,
      evaluateCatmullRomSegment_zero]
  intro heq
  rw [hL] at heq
  have hx := congrArg Vec3.x heq
  rw [specEvaluateCatmullRomThirds, if_pos (by norm_num : (333:ℚ)/1000 < 1/3)] at hx
  norm_num [Shader.evaluateCatmullRomSegment] at hx

end FlightPath
